import Mathlib

/-!
Verification of the real-time monophonic pitch-detection engine of the
voicenotes repository (native modules `AudioCaptureModule.kt` /
`AudioCaptureModule.swift`, the TypeScript utility `pitchUtils.ts`, and the
offline roadmap analyzer).

The embedding follows the source closely:

* real-valued quantities that feed transcendental functions (`log2`, `pow`,
  `sqrt`, `log10`) are modelled over `ℝ`;
* the purely arithmetic signal-conditioning state machine (hysteresis,
  octave-jump suppression, median filter) and the YIN estimator are modelled
  over `ℚ`, so concrete traces can be evaluated;
* machine integers are `ℤ`/`ℕ`; Kotlin/Swift integer division and remainder
  truncate towards zero, hence `Int.tdiv` / `Int.tmod`.
-/

namespace PitchEngine

/-! ## Frequency → note conversion -/

/-- The fixed sharps-only chromatic table `NOTE_NAMES` of the native modules
(also `NOTE_NAMES` in `pitchUtils.ts`). -/
def NOTE_NAMES : List String :=
  ["C", "C#", "D", "D#", "E", "F"] ++ ["F#", "G", "G#", "A", "A#", "B"]

/-- Result record of the conversion (`NoteInfo` in the native modules,
`NoteResult` in `pitchUtils.ts`). -/
structure NoteInfo where
  noteName : String
  octave   : ℤ
  fullName : String
  cents    : ℤ
deriving DecidableEq

/-- Embedding of `frequencyToNote` from the native modules
(`AudioCaptureModule.kt` lines 413-423, `AudioCaptureModule.swift` lines
577-589).  The iOS module reads the runtime-tunable A4 reference `dynA4`;
the Android module is the instance `a4 = 440`.  Kotlin and Swift `round`
is modelled by the Mathlib `round`; their integer division and remainder
truncate towards zero (`Int.tdiv` / `Int.tmod`). -/
noncomputable def frequencyToNote (freq a4 : ℝ) : Option NoteInfo :=
  if freq ≤ 20 ∨ 5000 < freq then none
  else
    let noteNum := 12 * Real.logb 2 (freq / a4) + 69
    let midiNearest : ℤ := round noteNum
    let nearFreq := a4 * (2 : ℝ) ^ (((midiNearest : ℝ) - 69) / 12)
    let cents : ℤ := round (1200 * Real.logb 2 (freq / nearFreq))
    let noteIdx := ((midiNearest.tmod 12) + 12).tmod 12
    let name := NOTE_NAMES.getD noteIdx.toNat ""
    let octave := midiNearest.tdiv 12 - 1
    some ⟨name, octave, name ++ toString octave, cents⟩

/-- Reference definition of the conversion, following the spec text
(§4.4): identical formulas, but `octave = floor(nearest_midi / 12) - 1`,
i.e. flooring division `Int.fdiv`. -/
noncomputable def frequencyToNoteSpec (freq a4 : ℝ) : Option NoteInfo :=
  if freq ≤ 20 ∨ 5000 < freq then none
  else
    let noteNum := 12 * Real.logb 2 (freq / a4) + 69
    let midiNearest : ℤ := round noteNum
    let nearFreq := a4 * (2 : ℝ) ^ (((midiNearest : ℝ) - 69) / 12)
    let cents : ℤ := round (1200 * Real.logb 2 (freq / nearFreq))
    let noteIdx := ((midiNearest.tmod 12) + 12).tmod 12
    let name := NOTE_NAMES.getD noteIdx.toNat ""
    let octave := midiNearest.fdiv 12 - 1
    some ⟨name, octave, name ++ toString octave, cents⟩

/-- Embedding of `frequencyToNote` from `pitchUtils.ts` (lines 11-22): the
guard is `frequency <= 0 || frequency < 20 || frequency > 5000`, the A4
reference is the fixed constant 440, and the octave uses `Math.floor`. -/
noncomputable def tsFrequencyToNote (frequency : ℝ) : Option NoteInfo :=
  if frequency ≤ 0 ∨ frequency < 20 ∨ 5000 < frequency then none
  else
    let noteNumber := 12 * Real.logb 2 (frequency / 440) + 69
    let nearestMidi : ℤ := round noteNumber
    let nearestFreq := 440 * (2 : ℝ) ^ (((nearestMidi : ℝ) - 69) / 12)
    let cents : ℤ := round (1200 * Real.logb 2 (frequency / nearestFreq))
    let name := NOTE_NAMES.getD (((nearestMidi.tmod 12) + 12).tmod 12).toNat ""
    let octave := nearestMidi.fdiv 12 - 1
    some ⟨name, octave, name ++ toString octave, cents⟩

/-! ## Published pitch state and its reader -/

/-- The published single-slot estimate (`PitchState` in both native modules);
the zero value is the record published by `clearState`. -/
structure PitchState where
  frequency  : ℚ := 0
  noteName   : String := ""
  octave     : ℤ := 0
  fullName   : String := ""
  cents      : ℤ := 0
  confidence : ℚ := 0
  timestamp  : ℚ := 0
  isValid    : Bool := false
deriving DecidableEq

/-- Embedding of `getLatestPitch` (`AudioCaptureModule.kt` lines 118-127,
`AudioCaptureModule.swift` lines 101-122): return `none` when the slot is
invalid, `none` when the estimate is older than 200 ms, otherwise the
published record. -/
def getLatestPitch (state : PitchState) (nowMs : ℚ) : Option PitchState :=
  if state.isValid = false then none
  else if 200 < nowMs - state.timestamp then none
  else some state

/-! ## Runtime-tunable configuration defaults -/

/-- Bundle of the four tunables named by §6 of the spec. -/
structure TunableConfig where
  silenceDb       : ℚ
  confidenceEnter : ℚ
  confidenceExit  : ℚ
  a4Reference     : ℚ
deriving DecidableEq

/-- Values governing the first processed window of the Android module:
`RMS_SILENCE_DB = -40`, `CONFIDENCE_ENTER = 0.85`, `CONFIDENCE_EXIT = 0.75`
(compile-time constants, lines 26-35 of `AudioCaptureModule.kt`), and the A4
reference fixed at 440 inside `frequencyToNote` (line 415). -/
def androidConfig : TunableConfig := ⟨-40, 0.85, 0.75, 440⟩

/-- Initial values of the iOS runtime tunables: `dynSilenceDb`,
`dynConfEnter`, `dynConfExit` start at `kRmsSilenceDb = -50.0`,
`kConfidenceEnter = 0.80`, `kConfidenceExit = 0.70` (lines 7-16 and 61-66 of
`AudioCaptureModule.swift`), and `dynA4` starts at `440.0`. -/
def iosInitialConfig : TunableConfig := ⟨-50, 0.80, 0.70, 440⟩

/-! ## Claims C6, C7 (boundary rejection), C8 -/

/-- Claim C6: `getLatestPitch` returns none exactly when the slot
`is_valid` flag is false or the estimate is more than 200 ms older than the
read time; an estimate 250 ms in the past is absent, one 100 ms in the past
is present with all its fields. -/
theorem claim_C6 (s : PitchState) (now : ℚ) :
    (getLatestPitch s now = none ↔ (s.isValid = false ∨ 200 < now - s.timestamp))
    ∧ (now - s.timestamp = 250 → getLatestPitch s now = none)
    ∧ (s.isValid = true → now - s.timestamp = 100 → getLatestPitch s now = some s) := by
  refine ⟨?_, ?_, ?_⟩
  · unfold getLatestPitch
    split_ifs with h1 h2
    · simp [h1]
    · simp [h1, h2]
    · simp [h1, h2]
  · intro h
    unfold getLatestPitch
    split_ifs with h1 h2
    · rfl
    · rfl
    · exfalso; rw [h] at h2; norm_num at h2
  · intro hv h
    unfold getLatestPitch
    rw [hv]
    simp only [Bool.true_eq_false, if_false]
    rw [h]
    norm_num

/-- Witness for C6: a valid estimate read 250 ms later is absent, and one
read 100 ms later is present. -/
theorem claim_C6_witness :
    getLatestPitch { timestamp := 0, isValid := true } 250 = none
    ∧ getLatestPitch { timestamp := 0, isValid := true } 100 =
        some { timestamp := 0, isValid := true } := by
  constructor
  · exact (claim_C6 { timestamp := 0, isValid := true } 250).2.1 (by norm_num)
  · exact (claim_C6 { timestamp := 0, isValid := true } 100).2.2 rfl (by norm_num)

/-- Counterexample for C7: the claim states that every implementation of
FrequencyToNote returns "no note" exactly when `f ≤ 20` or `f > 5000`, and
in particular at `f = 20`.  The TypeScript implementation guard is
`frequency <= 0 || frequency < 20 || frequency > 5000`, which accepts
`f = 20` and returns a note, while the native modules reject it. -/
theorem claim_C7_counterexample :
    tsFrequencyToNote 20 ≠ none ∧ frequencyToNote 20 440 = none := by
  constructor
  · unfold tsFrequencyToNote
    rw [if_neg (by norm_num)]
    simp
  · unfold frequencyToNote
    rw [if_pos (by norm_num)]

/-- Claim C7 (amended): the native `frequencyToNote` (Kotlin/Swift) returns
none exactly when `f ≤ 20` or `f > 5000`; the TypeScript `frequencyToNote`
returns none exactly when `f < 20` or `f > 5000`, so `f = 20` yields a note
there while every `f` with `20 < f ≤ 5000` yields a note in all
implementations. -/
theorem claim_C7_amended :
    (∀ f a4 : ℝ, frequencyToNote f a4 = none ↔ (f ≤ 20 ∨ 5000 < f))
    ∧ (∀ f : ℝ, tsFrequencyToNote f = none ↔ (f < 20 ∨ 5000 < f)) := by
  constructor
  · intro f a4
    unfold frequencyToNote
    split_ifs with h
    · simpa using h
    · simpa using h
  · intro f
    unfold tsFrequencyToNote
    split_ifs with h
    · simp only [true_iff]
      rcases h with h | h | h
      · left; linarith
      · left; exact h
      · right; exact h
    · simp only [reduceCtorEq, false_iff]
      push_neg at h ⊢
      exact ⟨h.2.1, h.2.2⟩

/-- Counterexample for C8: the claim states that in every implementation the
runtime-tunable configuration starts at silence threshold -40 dBFS,
confidence-enter 0.85, confidence-exit 0.75 and A4 440.  The iOS module
tunables start at -50 dBFS, 0.80, 0.70 instead. -/
theorem claim_C8_counterexample :
    iosInitialConfig ≠ (⟨-40, 0.85, 0.75, 440⟩ : TunableConfig) ∧
      iosInitialConfig.silenceDb = -50 ∧ iosInitialConfig.confidenceEnter = 0.80 ∧
      iosInitialConfig.confidenceExit = 0.70 := by
  refine ⟨?_, rfl, rfl, rfl⟩
  intro h
  have := congrArg TunableConfig.confidenceEnter h
  norm_num [iosInitialConfig] at this

/-- Claim C8 (amended): the Android implementation thresholds are the
compile-time constants -40 dBFS / 0.85 / 0.75 with the A4 reference fixed at
440 Hz, matching the documented defaults; the iOS implementation runtime
tunables instead start at -50 dBFS / 0.80 / 0.70 with A4 440 Hz, and those
initial values govern the first processed window. -/
theorem claim_C8_amended :
    androidConfig = (⟨-40, 0.85, 0.75, 440⟩ : TunableConfig)
    ∧ iosInitialConfig = (⟨-50, 0.80, 0.70, 440⟩ : TunableConfig) := ⟨rfl, rfl⟩

/-! ## Signal-conditioning state machine

The per-session mutable state of `processChunk` (`AudioCaptureModule.kt`
lines 82-94) / `processBuffer` (`AudioCaptureModule.swift` lines 50-71):
`isShowingPitch`, `prevFrequency`, `octaveHoldCount`, the 3-slot median
history (`medianBuf`, `medianIdx`, `medianCount`), and the published slot
`latestState`. -/

structure DSPState where
  isShowingPitch  : Bool
  prevFrequency   : ℚ
  octaveHoldCount : ℕ
  medianBuf       : List ℚ
  medianIdx       : ℕ
  medianCount     : ℕ
  latestState     : PitchState
deriving DecidableEq

/-- Embedding of `clearState` (`AudioCaptureModule.kt` lines 347-350): set
`isShowingPitch := false` and publish the zero `PitchState`; every other
field is untouched. -/
def clearStateS (s : DSPState) : DSPState :=
  { s with isShowingPitch := false, latestState := {} }

/-- Embedding of `resetDSP` (`AudioCaptureModule.kt` lines 245-259)
restricted to the conditioning state: everything zeroed. -/
def resetDSPState : DSPState :=
  ⟨false, 0, 0, [0, 0, 0], 0, 0, {}⟩

/-- Stage [4] of `processChunk` (`AudioCaptureModule.kt` lines 297-312):
octave-jump suppression.  Returns the updated state and the frequency
actually used (held or accepted); `prevFrequency` is set to that value. -/
def octaveStep (s : DSPState) (rawFreq : ℚ) : DSPState × ℚ :=
  if 0 < s.prevFrequency then
    let rt := rawFreq / s.prevFrequency
    if (1.85 < rt ∧ rt < 2.15) ∨ (0.46 < rt ∧ rt < 0.54) then
      if s.octaveHoldCount < 3 then
        ({ s with prevFrequency := s.prevFrequency,
                  octaveHoldCount := s.octaveHoldCount + 1 }, s.prevFrequency)
      else
        ({ s with prevFrequency := rawFreq, octaveHoldCount := 0 }, rawFreq)
    else
      ({ s with prevFrequency := rawFreq, octaveHoldCount := 0 }, rawFreq)
  else
    ({ s with prevFrequency := rawFreq }, rawFreq)

/-- Stage [5], first half (`AudioCaptureModule.kt` lines 315-317): write the
used frequency into the 3-slot rolling buffer. -/
def medianPush (s : DSPState) (freq : ℚ) : DSPState :=
  { s with medianBuf := s.medianBuf.set s.medianIdx freq,
           medianIdx := (s.medianIdx + 1) % 3,
           medianCount := min (s.medianCount + 1) 3 }

/-- Median of three by the explicit swap network of
`AudioCaptureModule.swift` lines 444-447. -/
def median3 (a b c : ℚ) : ℚ :=
  let p := if b < a then (b, a) else (a, b)
  let q := if c < p.2 then (c, p.2) else (p.2, c)
  let r := if q.1 < p.1 then (q.1, p.1) else (p.1, q.1)
  r.2

/-- Stage [5], second half (`AudioCaptureModule.kt` lines 319-326): the
filtered output frequency — the single value at count 1, the mean of the
first two slots at count 2, the median of the three slots once full. -/
def medianOutput (s : DSPState) : ℚ :=
  match s.medianCount with
  | 1 => s.medianBuf.getD 0 0
  | 2 => (s.medianBuf.getD 0 0 + s.medianBuf.getD 1 0) / 2
  | _ => median3 (s.medianBuf.getD 0 0) (s.medianBuf.getD 1 0) (s.medianBuf.getD 2 0)

/-- Stages [4]+[5] without the publish step: the conditioning-state effect
of an accepted window (all `DSPState` fields except `isShowingPitch` and
`latestState`, which stage [6] alone decides). -/
def acceptCore (s : DSPState) (rawFreq : ℚ) : DSPState :=
  medianPush (octaveStep s rawFreq).1 (octaveStep s rawFreq).2

/-- Stages [4]-[6] of `processChunk` (`AudioCaptureModule.kt` lines
297-344): octave suppression, median filter, then note conversion; when the
conversion fails nothing is published and `isShowingPitch` is left as it
was (the Kotlin `?: return` at line 328 — the octave/median mutations have
already happened), otherwise `isShowingPitch := true` and a fresh record is
published. -/
noncomputable def acceptStage (a4 : ℝ) (s : DSPState) (rawFreq conf now : ℚ) :
    DSPState :=
  let s2 := acceptCore s rawFreq
  let filtered := medianOutput s2
  match frequencyToNote (filtered : ℝ) a4 with
  | none => s2
  | some note =>
    { s2 with
      isShowingPitch := true,
      latestState :=
        { frequency := filtered, noteName := note.noteName, octave := note.octave,
          fullName := note.fullName, cents := note.cents, confidence := conf,
          timestamp := now, isValid := true } }

/-- Stage [3] of `processChunk` (`AudioCaptureModule.kt` lines 290-295)
followed by stages [4]-[6]: the confidence hysteresis with thresholds
`confEnter`/`confExit` (compile-time on Android, runtime-tunable on iOS). -/
noncomputable def condition (a4 : ℝ) (confEnter confExit : ℚ) (s : DSPState)
    (rawFreq conf now : ℚ) : DSPState :=
  if s.isShowingPitch then
    if conf < confExit then clearStateS s else acceptStage a4 s rawFreq conf now
  else
    if conf < confEnter then s else acceptStage a4 s rawFreq conf now

/-- Frame lemma: the publish stage only decides `isShowingPitch` and
`latestState`; the conditioning fields of `acceptStage` are those of
`acceptCore`. -/
theorem acceptStage_fields (a4 : ℝ) (s : DSPState) (rawFreq conf now : ℚ) :
    (acceptStage a4 s rawFreq conf now).prevFrequency = (acceptCore s rawFreq).prevFrequency
    ∧ (acceptStage a4 s rawFreq conf now).octaveHoldCount = (acceptCore s rawFreq).octaveHoldCount
    ∧ (acceptStage a4 s rawFreq conf now).medianBuf = (acceptCore s rawFreq).medianBuf
    ∧ (acceptStage a4 s rawFreq conf now).medianIdx = (acceptCore s rawFreq).medianIdx
    ∧ (acceptStage a4 s rawFreq conf now).medianCount = (acceptCore s rawFreq).medianCount := by
  unfold acceptStage
  cases h : frequencyToNote ((medianOutput (acceptCore s rawFreq) : ℚ) : ℝ) a4 <;>
    simp [h]

/-- Octave suppression and the median filter do not touch `isShowingPitch`. -/
theorem acceptCore_isShowing (s : DSPState) (rawFreq : ℚ) :
    (acceptCore s rawFreq).isShowingPitch = s.isShowingPitch := by
  simp only [acceptCore, medianPush, octaveStep]
  split_ifs <;> rfl

/-- The accept path never lowers `isShowingPitch`: it either leaves it
unchanged (failed conversion) or sets it to true. -/
theorem acceptStage_isShowing (a4 : ℝ) (s : DSPState) (rawFreq conf now : ℚ)
    (h : s.isShowingPitch = true) :
    (acceptStage a4 s rawFreq conf now).isShowingPitch = true := by
  unfold acceptStage
  cases hn : frequencyToNote ((medianOutput (acceptCore s rawFreq) : ℚ) : ℝ) a4 with
  | none => simp only [hn]; rw [acceptCore_isShowing]; exact h
  | some note => simp only [hn]

/-- Trace of the conditioning stages [4]-[5] over a sequence of accepted
per-window frequencies (frequencies that passed the silence gate, YIN and
the hysteresis): for each input the frequency actually used — the value
passed on to the median stage — is collected. -/
def acceptRun (s : DSPState) : List ℚ → List ℚ
  | [] => []
  | f :: fs => (octaveStep s f).2 :: acceptRun (acceptCore s f) fs

/-- Claim C3: with `prev_frequency > 0`, a frequency whose quotient against
the previous one lies in (1.85, 2.15) or (0.46, 0.54) is replaced by the
previous frequency while the hold counter is below 3 (counter increments);
at counter 3 — the 4th consecutive suspected jump — the new frequency is
accepted and the counter resets; a quotient outside the bands resets the
counter; `prev_frequency` always becomes the value actually used. -/
theorem claim_C3 (s : DSPState) (f : ℚ) (hp : 0 < s.prevFrequency) :
    (((1.85 < f / s.prevFrequency ∧ f / s.prevFrequency < 2.15)
        ∨ (0.46 < f / s.prevFrequency ∧ f / s.prevFrequency < 0.54)) →
      (s.octaveHoldCount < 3 →
        octaveStep s f = ({ s with octaveHoldCount := s.octaveHoldCount + 1 },
          s.prevFrequency))
      ∧ (s.octaveHoldCount = 3 →
        octaveStep s f = ({ s with prevFrequency := f, octaveHoldCount := 0 }, f)))
    ∧ (¬((1.85 < f / s.prevFrequency ∧ f / s.prevFrequency < 2.15)
        ∨ (0.46 < f / s.prevFrequency ∧ f / s.prevFrequency < 0.54)) →
      octaveStep s f = ({ s with prevFrequency := f, octaveHoldCount := 0 }, f))
    ∧ (octaveStep s f).1.prevFrequency = (octaveStep s f).2 := by
  refine ⟨fun hband => ⟨fun hc => ?_, fun hc => ?_⟩, fun hband => ?_, ?_⟩
  · simp only [octaveStep, if_pos hp, if_pos hband, if_pos hc]
  · simp only [octaveStep, if_pos hp, if_pos hband, hc]
    norm_num
  · simp only [octaveStep, if_pos hp, if_neg hband]
  · simp only [octaveStep]
    split_ifs <;> rfl

/-- Witness for C3: at `prev = 100`, the jump candidate 200 (quotient 2) is
held with the counter going 0 → 1; at counter 3 the same candidate is
accepted and the counter resets; the candidate 150 (quotient 1.5) resets the
counter. -/
theorem claim_C3_witness :
    octaveStep ⟨false, 100, 0, [0, 0, 0], 0, 0, {}⟩ 200 =
      (⟨false, 100, 1, [0, 0, 0], 0, 0, {}⟩, 100)
    ∧ octaveStep ⟨false, 100, 3, [0, 0, 0], 0, 0, {}⟩ 200 =
      (⟨false, 200, 0, [0, 0, 0], 0, 0, {}⟩, 200)
    ∧ octaveStep ⟨false, 100, 2, [0, 0, 0], 0, 0, {}⟩ 150 =
      (⟨false, 150, 0, [0, 0, 0], 0, 0, {}⟩, 150) := by
  refine ⟨?_, ?_, ?_⟩
  · exact ((claim_C3 ⟨false, 100, 0, [0, 0, 0], 0, 0, {}⟩ 200 (by norm_num)).1
      (by norm_num)).1 (by norm_num)
  · exact ((claim_C3 ⟨false, 100, 3, [0, 0, 0], 0, 0, {}⟩ 200 (by norm_num)).1
      (by norm_num)).2 rfl
  · exact (claim_C3 ⟨false, 100, 2, [0, 0, 0], 0, 0, {}⟩ 150 (by norm_num)).2.1
      (by norm_num)

/-- Counterexample for C4: for a sequence strictly alternating between
f = 110 and 2f = 220 for 10 (> 3) consecutive windows, the conditioner
never accepts 220 — every window uses 110.  Each held window keeps
`prev_frequency` at f, so the following f-window has quotient 1 and resets
the hold counter; the counter oscillates between 0 and 1 and never reaches
3. -/
theorem claim_C4_counterexample :
    acceptRun resetDSPState [110, 220, 110, 220, 110, 220, 110, 220, 110, 220]
      = List.replicate 10 (110 : ℚ)
    ∧ (220 : ℚ) ∉
      acceptRun resetDSPState [110, 220, 110, 220, 110, 220, 110, 220, 110, 220] := by
  have h : acceptRun resetDSPState [110, 220, 110, 220, 110, 220, 110, 220, 110, 220]
      = List.replicate 10 (110 : ℚ) := by
    norm_num [acceptRun, acceptCore, octaveStep, medianPush, resetDSPState,
      List.replicate]
  refine ⟨h, ?_⟩
  rw [h]
  simp [List.mem_replicate]

/-- Claim C4 (amended): a genuine octave change — f followed by 2f sustained
for more than `OCTAVE_SUPPRESS_MAX = 3` consecutive windows — is eventually
accepted: the first three 2f windows are held at f, and the 4th consecutive
suspected jump passes 2f on to the median stage. -/
theorem claim_C4_amended (f : ℚ) (hf : 0 < f) :
    acceptRun resetDSPState [f, 2 * f, 2 * f, 2 * f, 2 * f] =
      [f, f, f, f, 2 * f] := by
  have hne : f ≠ 0 := ne_of_gt hf
  have hr : (2 * f) / f = 2 := by field_simp
  norm_num [acceptRun, acceptCore, octaveStep, medianPush, resetDSPState, hr, hf]

/-- Witness for C4 (amended) at f = 110: the sustained jump to 220 is
accepted on the 5th window. -/
theorem claim_C4_witness :
    acceptRun resetDSPState [110, 220, 220, 220, 220] =
      [110, 110, 110, 110, 220] := by
  have h := claim_C4_amended 110 (by norm_num)
  norm_num at h
  exact h

/-! ## YIN estimator

Embedding of `yin` (`AudioCaptureModule.kt` lines 356-404,
`AudioCaptureModule.swift` lines 478-527).  The source operates on the
2048-sample `analysisWin` with `halfN = ANALYSIS_SIZE / 2`; the embedding
takes the window as a list and derives `halfN` from its length, so the
source is the instance at length 2048. -/

/-- Step 1 — the difference function `d[τ] = Σ_{j<halfN} (x[j]-x[j+τ])²`. -/
def yinDiffAt (w : List ℚ) (tau : ℕ) : ℚ :=
  ∑ j ∈ Finset.range (w.length / 2),
    (w.getD j 0 - w.getD (j + tau) 0) * (w.getD j 0 - w.getD (j + tau) 0)

/-- Step 2 — cumulative mean normalised difference: value 1 at lag 0, and
for positive lags `d[τ]·τ / S` with `S` the running sum of the difference
function over lags 1 to τ, or 1
when the running sum is not positive. -/
def yinCMNDAt (w : List ℚ) (tau : ℕ) : ℚ :=
  if tau = 0 then 1
  else
    let runSum := ∑ t ∈ Finset.Icc 1 tau, yinDiffAt w t
    if 0 < runSum then yinDiffAt w tau * tau / runSum else 1

/-- The inner loop of step 3 — from a first threshold crossing, walk forward
while the next value keeps decreasing and stays inside the scan range
(`while (t+1 < halfN-1 && cmnd[t+1] < cmnd[t]) t++`).  Structured with
explicit fuel; the source loop advances `t` fewer than `halfN` times, so
fuel `halfN` reproduces it. -/
def walkDown (c : ℕ → ℚ) (halfN : ℕ) : ℕ → ℕ → ℕ
  | 0, t => t
  | fuel + 1, t =>
    if t + 1 < halfN - 1 ∧ c (t + 1) < c t then walkDown c halfN fuel (t + 1) else t

/-- The full YIN pass: threshold search over `τ ∈ [2, halfN-2]` with
`YIN_THRESHOLD = 0.12`, local-minimum walk, parabolic interpolation with the
`1e-8` denominator guard, then the frequency-range gate `[75, 2000]` and the
confidence clamp to `[0, 1]`. -/
def yin (w : List ℚ) (sampleRate : ℚ) : Option (ℚ × ℚ) :=
  let halfN := w.length / 2
  let c := yinCMNDAt w
  match ((List.range (halfN - 1)).drop 2).find? (fun tau => decide (c tau < 0.12)) with
  | none => none
  | some tau0 =>
    let tauEst := walkDown c halfN halfN tau0
    let pv := max 1 (tauEst - 1)
    let nx := min (halfN - 2) (tauEst + 1)
    let denom := 2 * (c pv - 2 * c tauEst + c nx)
    let refined : ℚ :=
      if 1 / 100000000 < |denom| then (tauEst : ℚ) + (c pv - c nx) / denom
      else (tauEst : ℚ)
    let frequency := sampleRate / refined
    if frequency < 75 ∨ 2000 < frequency then none
    else some (frequency, max 0 (min 1 (1 - c tauEst)))

/-- Helper: an `if`-gate that yields `none` or wraps a value, observed to
produce `some`. -/
theorem ifGateEq {α : Type} {P : Prop} [Decidable P] {a r : α}
    (h : (if P then none else some a) = some r) : ¬P ∧ a = r := by
  split_ifs at h with hp
  exact ⟨hp, Option.some_inj.mp h⟩

/-- Evaluation helper: the YIN pass on the period-2 window
`[1,0,1,0,1,0,1,0]` at sample rate 300 returns frequency 120 and
confidence 1. -/
theorem yin_eval_alt : yin [1, 0, 1, 0, 1, 0, 1, 0] 300 = some (120, 1) := by
  norm_num [yin, yinCMNDAt, yinDiffAt, walkDown, Finset.sum_range_succ,
    Finset.sum_Icc_succ_top, List.find?]

/-- Evaluation helper: a constant window has zero difference function
everywhere, so the threshold search fails and YIN returns "no pitch". -/
theorem yin_eval_ones : yin [1, 1, 1, 1, 1, 1, 1, 1] 300 = none := by
  norm_num [yin, yinCMNDAt, yinDiffAt, Finset.sum_range_succ,
    Finset.sum_Icc_succ_top, List.find?]

/-- Claim C5: whenever `yin` returns a raw estimate, its frequency lies in
[75, 2000] Hz and its confidence is clamped into [0, 1]; a candidate whose
refined frequency falls outside [75, 2000] is rejected by the final gate. -/
theorem claim_C5 (w : List ℚ) (sampleRate f conf : ℚ)
    (h : yin w sampleRate = some (f, conf)) :
    75 ≤ f ∧ f ≤ 2000 ∧ 0 ≤ conf ∧ conf ≤ 1 := by
  simp only [yin] at h
  rcases hfind : ((List.range (w.length / 2 - 1)).drop 2).find?
      (fun tau => decide (yinCMNDAt w tau < 0.12)) with _ | tau0
  · rw [hfind] at h; exact absurd h (by simp)
  · rw [hfind] at h
    simp only at h
    obtain ⟨hrange, heq⟩ := ifGateEq h
    push_neg at hrange
    rw [Prod.mk.injEq] at heq
    obtain ⟨hf, hc⟩ := heq
    refine ⟨hf ▸ hrange.1, hf ▸ hrange.2, ?_, ?_⟩
    · rw [← hc]; exact le_max_left 0 _
    · rw [← hc]
      exact max_le (by norm_num) (min_le_left 1 _)

/-- Witness for C5: on the period-2 window `[1,0,1,0,1,0,1,0]` at sample
rate 300 the estimator returns frequency 120 with confidence 1, and the
bounds hold there. -/
theorem claim_C5_witness :
    yin [1, 0, 1, 0, 1, 0, 1, 0] 300 = some (120, 1)
    ∧ (75 ≤ (120 : ℚ) ∧ (120 : ℚ) ≤ 2000 ∧ (0 : ℚ) ≤ 1 ∧ (1 : ℚ) ≤ 1) :=
  ⟨yin_eval_alt, claim_C5 [1, 0, 1, 0, 1, 0, 1, 0] 300 120 1 yin_eval_alt⟩

/-! ## Full per-window pipeline -/

/-- Stage [1] of `processChunk` (`AudioCaptureModule.kt` lines 279-284): RMS
of the analysis window in dBFS (`20·log10(rms)`), with the -200 dB sentinel
when the RMS is exactly zero. -/
noncomputable def rmsDb (w : List ℚ) : ℝ :=
  let sumSq : ℚ := (w.map fun v => v * v).sum
  let rms : ℝ := Real.sqrt ((sumSq : ℝ) / (w.length : ℝ))
  if 0 < rms then 20 * Real.logb 10 rms else -200

/-- Stages [1]-[6] of `processChunk` on one assembled analysis window
(`AudioCaptureModule.kt` lines 279-345): silence gate, YIN, then the
conditioning of `condition`.  A window rejected by the silence gate or by
YIN calls `clearState`. -/
noncomputable def processWindow (silenceDb : ℝ) (confEnter confExit : ℚ) (a4 : ℝ)
    (s : DSPState) (w : List ℚ) (sampleRate now : ℚ) : DSPState :=
  if rmsDb w < silenceDb then clearStateS s
  else
    match yin w sampleRate with
    | none => clearStateS s
    | some (f, c) => condition a4 confEnter confExit s f c now

/-- Evaluation helper: the all-zero window has RMS 0, hence the -200 dB
sentinel. -/
theorem rmsDb_zeros : rmsDb [0, 0, 0, 0, 0, 0, 0, 0] = -200 := by
  simp only [rmsDb]
  norm_num

/-- Evaluation helper: the all-ones window has RMS 1, hence 0 dBFS. -/
theorem rmsDb_ones : rmsDb [1, 1, 1, 1, 1, 1, 1, 1] = 0 := by
  simp only [rmsDb]
  norm_num

/-- Evaluation helper: the period-2 window `[1,0,1,0,1,0,1,0]` is louder
than -40 dBFS (its RMS is √½, about -3 dBFS). -/
theorem rmsDb_alt_not_lt : ¬ rmsDb [1, 0, 1, 0, 1, 0, 1, 0] < -40 := by
  have heq : rmsDb [1, 0, 1, 0, 1, 0, 1, 0] = 20 * Real.logb 10 (Real.sqrt (1 / 2)) := by
    simp only [rmsDb]
    norm_num
  have h100 : Real.logb 10 ((1 : ℝ) / 100) = -2 := by
    have h : ((1 : ℝ) / 100) = (10 : ℝ) ^ (-2 : ℝ) := by
      rw [show (-2 : ℝ) = ((-2 : ℤ) : ℝ) by norm_num, Real.rpow_intCast]
      norm_num
    rw [h, Real.logb_rpow (by norm_num) (by norm_num)]
  have hle : ((1 : ℝ) / 100) ≤ Real.sqrt (1 / 2) := by
    refine le_of_lt ((Real.lt_sqrt (by norm_num)).mpr (by norm_num))
  have hmono : Real.logb 10 ((1 : ℝ) / 100) ≤ Real.logb 10 (Real.sqrt (1 / 2)) :=
    Real.logb_le_logb_of_le (by norm_num) (by norm_num) hle
  rw [heq]
  rw [h100] at hmono
  linarith

/-- Claim C2: for a window that passes the silence gate and yields a raw
estimate with confidence c, the hysteresis behaves as specified: showing and
`c < confExit` clears state and emits no note; not showing and
`c < confEnter` emits nothing and leaves the published estimate and all
conditioning state unchanged.  With the thresholds `ENTER = 0.85`,
`EXIT = 0.75` of the claim, confidence 0.80 keeps an already-showing note
showing and never starts a new note when none is showing. -/
theorem claim_C2 (silenceDb a4 : ℝ) (confEnter confExit : ℚ) (s : DSPState)
    (w : List ℚ) (sr now f c : ℚ)
    (hloud : ¬ rmsDb w < silenceDb) (hyin : yin w sr = some (f, c)) :
    (s.isShowingPitch = true → c < confExit →
      processWindow silenceDb confEnter confExit a4 s w sr now = clearStateS s)
    ∧ (s.isShowingPitch = false → c < confEnter →
      processWindow silenceDb confEnter confExit a4 s w sr now = s)
    ∧ (∀ (s2 : DSPState) (f2 now2 : ℚ),
        (s2.isShowingPitch = true →
          (condition a4 0.85 0.75 s2 f2 0.80 now2).isShowingPitch = true)
        ∧ (s2.isShowingPitch = false →
          condition a4 0.85 0.75 s2 f2 0.80 now2 = s2)) := by
  have hPW : processWindow silenceDb confEnter confExit a4 s w sr now
      = condition a4 confEnter confExit s f c now := by
    unfold processWindow
    rw [if_neg hloud, hyin]
  refine ⟨fun hs hc => ?_, fun hs hc => ?_, fun s2 f2 now2 => ⟨fun hs2 => ?_, fun hs2 => ?_⟩⟩
  · rw [hPW]; simp [condition, hs, hc]
  · rw [hPW]; simp [condition, hs, hc]
  · have hno : ¬ ((0.80 : ℚ) < 0.75) := by norm_num
    simp only [condition, hs2, if_true]
    rw [if_neg hno]
    exact acceptStage_isShowing a4 s2 f2 0.80 now2 hs2
  · have hyes : ((0.80 : ℚ) < 0.85) := by norm_num
    simp only [condition, hs2]
    simp [hyes]

/-- Witness for C2, on the loud period-2 window with YIN estimate
(120, 1): with `confExit = 2` a showing state is cleared; with
`confEnter = 2` a non-showing state is left untouched; and at confidence
0.80 with thresholds 0.85/0.75 a showing state keeps showing while a
non-showing state stays unchanged. -/
theorem claim_C2_witness :
    processWindow (-40) 2 2 440 ⟨true, 100, 0, [0, 0, 0], 0, 0, {}⟩
        [1, 0, 1, 0, 1, 0, 1, 0] 300 0
      = clearStateS ⟨true, 100, 0, [0, 0, 0], 0, 0, {}⟩
    ∧ processWindow (-40) 2 2 440 ⟨false, 100, 0, [0, 0, 0], 0, 0, {}⟩
        [1, 0, 1, 0, 1, 0, 1, 0] 300 0
      = ⟨false, 100, 0, [0, 0, 0], 0, 0, {}⟩
    ∧ (condition 440 0.85 0.75 ⟨true, 100, 0, [0, 0, 0], 0, 0, {}⟩
        100 0.80 0).isShowingPitch = true
    ∧ condition 440 0.85 0.75 ⟨false, 100, 0, [0, 0, 0], 0, 0, {}⟩ 100 0.80 0
      = ⟨false, 100, 0, [0, 0, 0], 0, 0, {}⟩ := by
  refine ⟨?_, ?_, ?_, ?_⟩
  · exact (claim_C2 (-40) 440 2 2 ⟨true, 100, 0, [0, 0, 0], 0, 0, {}⟩
      [1, 0, 1, 0, 1, 0, 1, 0] 300 0 120 1 rmsDb_alt_not_lt yin_eval_alt).1
      rfl (by norm_num)
  · exact (claim_C2 (-40) 440 2 2 ⟨false, 100, 0, [0, 0, 0], 0, 0, {}⟩
      [1, 0, 1, 0, 1, 0, 1, 0] 300 0 120 1 rmsDb_alt_not_lt yin_eval_alt).2.1
      rfl (by norm_num)
  · exact ((claim_C2 (-40) 440 2 2 ⟨true, 100, 0, [0, 0, 0], 0, 0, {}⟩
      [1, 0, 1, 0, 1, 0, 1, 0] 300 0 120 1 rmsDb_alt_not_lt yin_eval_alt).2.2
      ⟨true, 100, 0, [0, 0, 0], 0, 0, {}⟩ 100 0).1 rfl
  · exact ((claim_C2 (-40) 440 2 2 ⟨false, 100, 0, [0, 0, 0], 0, 0, {}⟩
      [1, 0, 1, 0, 1, 0, 1, 0] 300 0 120 1 rmsDb_alt_not_lt yin_eval_alt).2.2
      ⟨false, 100, 0, [0, 0, 0], 0, 0, {}⟩ 100 0).2 rfl

/-- Helper: the median output only reads fields that `clearState` leaves
alone. -/
theorem medianOutput_clearStateS (s : DSPState) :
    medianOutput (clearStateS s) = medianOutput s := rfl

/-- Claim C10: a rejected window (silence gate, YIN "no pitch", or
confidence-exit) runs `clearState`, which resets only `is_showing_pitch`
and the published slot; `prev_frequency`, `octave_hold_count` and the median
history are untouched, so the conditioning stages treat the first frequency
accepted after a gap exactly as if there had been no gap (they commute with
`clearState`), and the full zeroing happens only in `resetDSP`. -/
theorem claim_C10 (silenceDb a4 : ℝ) (confEnter confExit : ℚ) (s : DSPState)
    (w : List ℚ) (sr now : ℚ) :
    (rmsDb w < silenceDb →
      processWindow silenceDb confEnter confExit a4 s w sr now = clearStateS s)
    ∧ (¬ rmsDb w < silenceDb → yin w sr = none →
      processWindow silenceDb confEnter confExit a4 s w sr now = clearStateS s)
    ∧ (∀ f c, ¬ rmsDb w < silenceDb → yin w sr = some (f, c) →
        s.isShowingPitch = true → c < confExit →
        processWindow silenceDb confEnter confExit a4 s w sr now = clearStateS s)
    ∧ ((clearStateS s).prevFrequency = s.prevFrequency
      ∧ (clearStateS s).octaveHoldCount = s.octaveHoldCount
      ∧ (clearStateS s).medianBuf = s.medianBuf
      ∧ (clearStateS s).medianIdx = s.medianIdx
      ∧ (clearStateS s).medianCount = s.medianCount
      ∧ (clearStateS s).isShowingPitch = false
      ∧ (clearStateS s).latestState = {})
    ∧ resetDSPState = ⟨false, 0, 0, [0, 0, 0], 0, 0, {}⟩
    ∧ (∀ f : ℚ, acceptCore (clearStateS s) f = clearStateS (acceptCore s f)
        ∧ medianOutput (acceptCore (clearStateS s) f) = medianOutput (acceptCore s f)) := by
  refine ⟨fun hq => ?_, fun hl hn => ?_, fun f c hl hy hs hc => ?_,
    ⟨rfl, rfl, rfl, rfl, rfl, rfl, rfl⟩, rfl, fun f => ?_⟩
  · unfold processWindow
    rw [if_pos hq]
  · unfold processWindow
    rw [if_neg hl, hn]
  · have hPW : processWindow silenceDb confEnter confExit a4 s w sr now
        = condition a4 confEnter confExit s f c now := by
      unfold processWindow
      rw [if_neg hl, hy]
    rw [hPW]; simp [condition, hs, hc]
  · have hcomm : acceptCore (clearStateS s) f = clearStateS (acceptCore s f) := by
      simp only [acceptCore, clearStateS, medianPush, octaveStep]
      split_ifs <;> rfl
    exact ⟨hcomm, by rw [hcomm, medianOutput_clearStateS]⟩

/-- Witness for C10: the silent window, the constant window (YIN finds no
pitch), and a confidence-exit rejection each clear a concrete showing state;
the frame facts are read off at the same state. -/
theorem claim_C10_witness :
    processWindow (-40) 0.85 0.75 440 ⟨true, 95, 1, [90, 100, 0], 2, 2, {}⟩
        [0, 0, 0, 0, 0, 0, 0, 0] 300 0
      = clearStateS ⟨true, 95, 1, [90, 100, 0], 2, 2, {}⟩
    ∧ processWindow (-40) 0.85 0.75 440 ⟨true, 95, 1, [90, 100, 0], 2, 2, {}⟩
        [1, 1, 1, 1, 1, 1, 1, 1] 300 0
      = clearStateS ⟨true, 95, 1, [90, 100, 0], 2, 2, {}⟩
    ∧ processWindow (-40) 0.85 2 440 ⟨true, 95, 1, [90, 100, 0], 2, 2, {}⟩
        [1, 0, 1, 0, 1, 0, 1, 0] 300 0
      = clearStateS ⟨true, 95, 1, [90, 100, 0], 2, 2, {}⟩ := by
  refine ⟨?_, ?_, ?_⟩
  · exact (claim_C10 (-40) 440 0.85 0.75 ⟨true, 95, 1, [90, 100, 0], 2, 2, {}⟩
      [0, 0, 0, 0, 0, 0, 0, 0] 300 0).1 (by rw [rmsDb_zeros]; norm_num)
  · exact (claim_C10 (-40) 440 0.85 0.75 ⟨true, 95, 1, [90, 100, 0], 2, 2, {}⟩
      [1, 1, 1, 1, 1, 1, 1, 1] 300 0).2.1 (by rw [rmsDb_ones]; norm_num) yin_eval_ones
  · exact (claim_C10 (-40) 440 0.85 2 ⟨true, 95, 1, [90, 100, 0], 2, 2, {}⟩
      [1, 0, 1, 0, 1, 0, 1, 0] 300 0).2.2.1 120 1 rmsDb_alt_not_lt yin_eval_alt
      rfl (by norm_num)

/-! ## Exact evaluations of the note conversion -/

/-- Helper: `round x = z` once `x + 1/2` lies in `[z, z+1)`. -/
theorem round_eq_int {z : ℤ} {x : ℝ} (h1 : (z : ℝ) ≤ x + 1 / 2)
    (h2 : x + 1 / 2 < (z : ℝ) + 1) : round x = z := by
  rw [round_eq]
  exact Int.floor_eq_iff.mpr ⟨h1, h2⟩

/-- Helper: when `freq / a4` is exactly the equal-tempered quotient of MIDI
note `m`, the conversion lands exactly on `m` with zero cents. -/
theorem frequencyToNote_exact (freq a4 : ℝ) (m : ℤ)
    (hguard : ¬(freq ≤ 20 ∨ 5000 < freq)) (ha : 0 < a4)
    (hr : freq / a4 = (2 : ℝ) ^ (((m : ℝ) - 69) / 12)) :
    frequencyToNote freq a4 =
      some ⟨NOTE_NAMES.getD (((m.tmod 12) + 12).tmod 12).toNat "", m.tdiv 12 - 1,
        NOTE_NAMES.getD (((m.tmod 12) + 12).tmod 12).toNat ""
          ++ toString (m.tdiv 12 - 1), 0⟩ := by
  have hfpos : (0 : ℝ) < freq := by
    push_neg at hguard
    linarith [hguard.1]
  have hlogb : Real.logb 2 (freq / a4) = ((m : ℝ) - 69) / 12 := by
    rw [hr, Real.logb_rpow (by norm_num) (by norm_num)]
  have hnn : 12 * Real.logb 2 (freq / a4) + 69 = (m : ℝ) := by
    rw [hlogb]; ring
  have hnf : a4 * (2 : ℝ) ^ (((m : ℝ) - 69) / 12) = freq := by
    rw [← hr, mul_div_cancel₀ _ (ne_of_gt ha)]
  simp only [frequencyToNote, if_neg hguard, hnn, round_intCast, hnf,
    div_self (ne_of_gt hfpos), Real.logb_one, mul_zero, round_zero]

/-- Helper: the spec-formula conversion at the same exact inputs, with the
flooring octave. -/
theorem frequencyToNoteSpec_exact (freq a4 : ℝ) (m : ℤ)
    (hguard : ¬(freq ≤ 20 ∨ 5000 < freq)) (ha : 0 < a4)
    (hr : freq / a4 = (2 : ℝ) ^ (((m : ℝ) - 69) / 12)) :
    frequencyToNoteSpec freq a4 =
      some ⟨NOTE_NAMES.getD (((m.tmod 12) + 12).tmod 12).toNat "", m.fdiv 12 - 1,
        NOTE_NAMES.getD (((m.tmod 12) + 12).tmod 12).toNat ""
          ++ toString (m.fdiv 12 - 1), 0⟩ := by
  have hfpos : (0 : ℝ) < freq := by
    push_neg at hguard
    linarith [hguard.1]
  have hlogb : Real.logb 2 (freq / a4) = ((m : ℝ) - 69) / 12 := by
    rw [hr, Real.logb_rpow (by norm_num) (by norm_num)]
  have hnn : 12 * Real.logb 2 (freq / a4) + 69 = (m : ℝ) := by
    rw [hlogb]; ring
  have hnf : a4 * (2 : ℝ) ^ (((m : ℝ) - 69) / 12) = freq := by
    rw [← hr, mul_div_cancel₀ _ (ne_of_gt ha)]
  simp only [frequencyToNoteSpec, if_neg hguard, hnn, round_intCast, hnf,
    div_self (ne_of_gt hfpos), Real.logb_one, mul_zero, round_zero]

/-! ## Offline roadmap analyzer: segment finalization -/

/-- One emitted roadmap segment (the map appended by `flushSegment` in the
offline analyzer). -/
structure RoadmapSegment where
  startSec   : ℚ
  endSec     : ℚ
  noteName   : String
  octave     : ℤ
  fullName   : String
  confidence : ℚ
  hasNote    : Bool
deriving DecidableEq

/-- The Kotlin pattern `segVote.indices.maxByOrNull` applied to the vote
array: the first index
carrying the maximal value (later indices replace the best only on a
strictly larger value). -/
def argmaxIdx (v : List ℚ) : ℕ :=
  (List.range v.length).foldl
    (fun best i => if v.getD best 0 < v.getD i 0 then i else best) 0

/-- The winning note equal-tempered frequency `440 * 2^((midi-69)/12)` used by
`flushSegment` and the dominant-note computation. -/
noncomputable def midiFreq (m : ℕ) : ℝ :=
  440 * (2 : ℝ) ^ (((m : ℝ) - 69) / 12)

/-- Embedding of `flushSegment` of the offline analyzer
(`src/unnamed/part_001` lines 504-531): emit one segment from the vote
accumulator, zero the accumulator, advance the segment start by the
segment length, and reset the elapsed-sample counter.  Result:
`(segment, new segStart, new segSamples, new segVote)`. -/
noncomputable def flushSegment (fileSR segStart : ℚ) (segSamples : ℕ)
    (segVote : List ℚ) : RoadmapSegment × ℚ × ℕ × List ℚ :=
  let segEnd := segStart + (segSamples : ℚ) / fileSR
  let total := segVote.sum
  let seg : RoadmapSegment :=
    if 0 < total then
      let midi := argmaxIdx segVote
      let conf := segVote.getD midi 0 / total
      match frequencyToNote (midiFreq midi) 440 with
      | some note =>
          ⟨segStart, segEnd, note.noteName, note.octave, note.fullName, conf, true⟩
      | none => ⟨segStart, segEnd, "", 0, "", 0, false⟩
    else ⟨segStart, segEnd, "", 0, "", 0, false⟩
  (seg, segStart + (segSamples : ℚ) / fileSR, 0, List.replicate segVote.length 0)

/-- Claim C9: a finalized segment with zero vote total is emitted with
`has_note = false`, empty name and confidence 0; otherwise the winner is the
argmax of the vote array, the segment confidence is `vote[winner]/sum(vote)`
and name/octave come from FrequencyToNote at the winning equal-tempered
frequency; in both cases the vote accumulator is zeroed and the segment
start advances by the segment length. -/
theorem claim_C9 (fileSR segStart : ℚ) (segSamples : ℕ) (v : List ℚ) :
    (v.sum = 0 →
      flushSegment fileSR segStart segSamples v =
        (⟨segStart, segStart + (segSamples : ℚ) / fileSR, "", 0, "", 0, false⟩,
          segStart + (segSamples : ℚ) / fileSR, 0, List.replicate v.length 0))
    ∧ (∀ note : NoteInfo, 0 < v.sum →
        frequencyToNote (midiFreq (argmaxIdx v)) 440 = some note →
        flushSegment fileSR segStart segSamples v =
          (⟨segStart, segStart + (segSamples : ℚ) / fileSR, note.noteName,
              note.octave, note.fullName, v.getD (argmaxIdx v) 0 / v.sum, true⟩,
            segStart + (segSamples : ℚ) / fileSR, 0, List.replicate v.length 0)) := by
  constructor
  · intro h0
    simp only [flushSegment, h0]
    norm_num
  · intro note hpos hnote
    simp only [flushSegment, if_pos hpos, hnote]

/-- Witness for C9: an all-zero vote pair yields the no-note segment; a vote
array whose mass sits at MIDI 16 (equal-tempered ≈ 20.6 Hz, note E0) yields
a segment named from FrequencyToNote with confidence 1; both reset the
accumulator and advance the start time by the segment length. -/
theorem claim_C9_witness :
    flushSegment 48000 0 480 [0, 0] =
      (⟨0, 1 / 100, "", 0, "", 0, false⟩, 1 / 100, 0, [0, 0])
    ∧ flushSegment 48000 0 480
        [0, 0, 0, 0, 0, 0, 0, 0, 0, 0, 0, 0, 0, 0, 0, 0, 9 / 10] =
      (⟨0, 1 / 100, "E", 0, "E0", 1, true⟩, 1 / 100, 0, List.replicate 17 0) := by
  constructor
  · have h := (claim_C9 48000 0 480 [0, 0]).1 (by norm_num)
    rw [h]
    norm_num [List.replicate]
  · have harg : argmaxIdx [0, 0, 0, 0, 0, 0, 0, 0, 0, 0, 0, 0, 0, 0, 0, 0, (9:ℚ) / 10] = 16 := by
      rw [argmaxIdx, show ([0, 0, 0, 0, 0, 0, 0, 0, 0, 0, 0, 0, 0, 0, 0, 0, (9:ℚ) / 10] :
          List ℚ).length = 17 by rfl,
        show List.range 17 = [0, 1, 2, 3, 4, 5, 6, 7, 8, 9, 10, 11, 12, 13, 14, 15, 16]
          from by decide]
      norm_num
    have hfreq : frequencyToNote (midiFreq 16) 440 = some ⟨"E", 0, "E0", 0⟩ := by
      have hlow : (1 : ℝ) / 22 < (2 : ℝ) ^ ((-53 : ℝ) / 12) := by
        have hkey : ((2 : ℝ) ^ ((53 : ℝ) / 12)) ^ (12 : ℕ) = (2 : ℝ) ^ (53 : ℕ) := by
          rw [← Real.rpow_natCast ((2 : ℝ) ^ ((53 : ℝ) / 12)) 12,
            ← Real.rpow_mul (by norm_num)]
          norm_num
        have hppos : (0 : ℝ) < (2 : ℝ) ^ ((53 : ℝ) / 12) := Real.rpow_pos_of_pos (by norm_num) _
        have hlt : (2 : ℝ) ^ ((53 : ℝ) / 12) < 22 := by
          by_contra hcon
          push_neg at hcon
          have h12 : (22 : ℝ) ^ (12 : ℕ) ≤ ((2 : ℝ) ^ ((53 : ℝ) / 12)) ^ (12 : ℕ) :=
            pow_le_pow_left (by norm_num) hcon 12
          rw [hkey] at h12
          norm_num at h12
        have hneg : (2 : ℝ) ^ ((-53 : ℝ) / 12) = ((2 : ℝ) ^ ((53 : ℝ) / 12))⁻¹ := by
          rw [← Real.rpow_neg (by norm_num)]
          norm_num
        rw [hneg]
        rw [show (1 : ℝ) / 22 = (22 : ℝ)⁻¹ by norm_num]
        exact inv_lt_inv_of_lt hppos hlt
      have hhi : (2 : ℝ) ^ ((-53 : ℝ) / 12) < 1 :=
        Real.rpow_lt_one_of_one_lt_of_neg (by norm_num) (by norm_num)
      have hm : midiFreq 16 = 440 * (2 : ℝ) ^ ((-53 : ℝ) / 12) := by
        unfold midiFreq
        rw [show ((((16 : ℕ) : ℝ)) - 69) / 12 = (-53 : ℝ) / 12 by norm_num]
      have hguard : ¬(midiFreq 16 ≤ 20 ∨ 5000 < midiFreq 16) := by
        push_neg
        rw [hm]
        constructor
        · linarith [hlow]
        · linarith [hhi]
      have hr : midiFreq 16 / 440 = (2 : ℝ) ^ ((((16 : ℤ) : ℝ) - 69) / 12) := by
        rw [hm, mul_div_cancel_left₀ _ (by norm_num : (440 : ℝ) ≠ 0),
          show ((((16 : ℤ) : ℝ)) - 69) / 12 = (-53 : ℝ) / 12 by norm_num]
      have h := frequencyToNote_exact (midiFreq 16) 440 16 hguard (by norm_num) hr
      rw [h]
      decide
    have h := (claim_C9 48000 0 480
        [0, 0, 0, 0, 0, 0, 0, 0, 0, 0, 0, 0, 0, 0, 0, 0, 9 / 10]).2
      ⟨"E", 0, "E0", 0⟩ (by norm_num) (by rw [harg]; exact hfreq)
    rw [h, harg]
    norm_num [List.replicate]

/-! ## Claim C1: the conversion formulas -/

/-- Helper: the conversion at any input passing the guard, with the nearest
MIDI number already computed. -/
theorem frequencyToNote_eval (freq a4 : ℝ) (m : ℤ)
    (hguard : ¬(freq ≤ 20 ∨ 5000 < freq))
    (hmid : round (12 * Real.logb 2 (freq / a4) + 69) = m) :
    frequencyToNote freq a4 =
      some ⟨NOTE_NAMES.getD (((m.tmod 12) + 12).tmod 12).toNat "", m.tdiv 12 - 1,
        NOTE_NAMES.getD (((m.tmod 12) + 12).tmod 12).toNat ""
          ++ toString (m.tdiv 12 - 1),
        round (1200 * Real.logb 2 (freq / (a4 * (2 : ℝ) ^ (((m : ℝ) - 69) / 12))))⟩ := by
  simp only [frequencyToNote, if_neg hguard, hmid]

/-- Numeric bounds on `log2(440/442)`, from `log x ≤ x - 1`,
`1 - x⁻¹ ≤ log x` and the 9-digit bounds on `log 2`. -/
theorem logb_440_442_bounds :
    (-0.00656 : ℝ) ≤ Real.logb 2 (440 / 442)
    ∧ Real.logb 2 (440 / 442) ≤ (-0.006528 : ℝ) := by
  have hx : (0 : ℝ) < 440 / 442 := by norm_num
  have hub : Real.log ((440 : ℝ) / 442) ≤ -1 / 221 := by
    have h1 := Real.log_le_sub_one_of_pos hx
    have h2 : (440 : ℝ) / 442 - 1 = -1 / 221 := by norm_num
    linarith
  have hlb : (-1 : ℝ) / 220 ≤ Real.log ((440 : ℝ) / 442) := by
    have h1 := Real.one_sub_inv_le_log_of_pos hx
    have h2 : 1 - ((440 : ℝ) / 442)⁻¹ = -1 / 220 := by norm_num
    linarith
  have hT : (0 : ℝ) < Real.log 2 := Real.log_pos (by norm_num)
  have hmul : Real.logb 2 ((440 : ℝ) / 442) * Real.log 2 = Real.log ((440 : ℝ) / 442) := by
    rw [Real.logb]
    exact div_mul_cancel₀ _ (ne_of_gt hT)
  constructor
  · nlinarith [Real.log_two_gt_d9, Real.log_two_lt_d9]
  · nlinarith [Real.log_two_gt_d9, Real.log_two_lt_d9]

/-- Numeric bounds on `log2(445/440)`. -/
theorem logb_445_440_bounds :
    (0.01620 : ℝ) ≤ Real.logb 2 (445 / 440)
    ∧ Real.logb 2 (445 / 440) ≤ (0.0164 : ℝ) := by
  have hx : (0 : ℝ) < 445 / 440 := by norm_num
  have hub : Real.log ((445 : ℝ) / 440) ≤ 1 / 88 := by
    have h1 := Real.log_le_sub_one_of_pos hx
    have h2 : (445 : ℝ) / 440 - 1 = 1 / 88 := by norm_num
    linarith
  have hlb : (1 : ℝ) / 89 ≤ Real.log ((445 : ℝ) / 440) := by
    have h1 := Real.one_sub_inv_le_log_of_pos hx
    have h2 : 1 - ((445 : ℝ) / 440)⁻¹ = 1 / 89 := by norm_num
    linarith
  have hT : (0 : ℝ) < Real.log 2 := Real.log_pos (by norm_num)
  have hmul : Real.logb 2 ((445 : ℝ) / 440) * Real.log 2 = Real.log ((445 : ℝ) / 440) := by
    rw [Real.logb]
    exact div_mul_cancel₀ _ (ne_of_gt hT)
  constructor
  · nlinarith [Real.log_two_gt_d9, Real.log_two_lt_d9]
  · nlinarith [Real.log_two_gt_d9, Real.log_two_lt_d9]

/-- Evaluation helper: 442 Hz against A4 = 442 is exactly A4 with 0 cents. -/
theorem frequencyToNote_442_442 :
    frequencyToNote 442 442 = some ⟨"A", 4, "A4", 0⟩ := by
  have hr : (442 : ℝ) / 442 = (2 : ℝ) ^ ((((69 : ℤ) : ℝ) - 69) / 12) := by
    rw [show ((((69 : ℤ) : ℝ)) - 69) / 12 = (0 : ℝ) by norm_num, Real.rpow_zero]
    norm_num
  rw [frequencyToNote_exact 442 442 69 (by norm_num) (by norm_num) hr]
  decide

/-- Evaluation helper: 440 Hz against A4 = 442 is still named A4 but with
cents rounding to -8 (negative). -/
theorem frequencyToNote_440_442 :
    frequencyToNote 440 442 = some ⟨"A", 4, "A4", -8⟩ := by
  obtain ⟨hlb, hub⟩ := logb_440_442_bounds
  have hmid : round (12 * Real.logb 2 ((440 : ℝ) / 442) + 69) = 69 :=
    round_eq_int (by push_cast; linarith) (by push_cast; linarith)
  rw [frequencyToNote_eval 440 442 69 (by norm_num) hmid]
  have hinner : (442 : ℝ) * (2 : ℝ) ^ ((((69 : ℤ) : ℝ) - 69) / 12) = 442 := by
    rw [show ((((69 : ℤ) : ℝ)) - 69) / 12 = (0 : ℝ) by norm_num, Real.rpow_zero, mul_one]
  rw [hinner]
  have hcents : round (1200 * Real.logb 2 ((440 : ℝ) / 442)) = -9 + 1 :=
    round_eq_int (by push_cast; linarith) (by push_cast; linarith)
  rw [hcents]
  decide

/-- Counterexample for C1: the reference definition of the claim uses
`floor(nearest_midi / 12) - 1` for the octave, but the code divides with
Kotlin/Swift truncating integer division.  At `f = 21` Hz with the
configured A4 reference 1344 Hz (`setA4Calibration` accepts any value) the
nearest MIDI number is -3, the code returns octave -1, the spec formula
octave -2. -/
theorem claim_C1_counterexample :
    frequencyToNote 21 1344 = some ⟨"A", -1, "A-1", 0⟩
    ∧ frequencyToNoteSpec 21 1344 = some ⟨"A", -2, "A-2", 0⟩
    ∧ frequencyToNote 21 1344 ≠ frequencyToNoteSpec 21 1344 := by
  have hr : (21 : ℝ) / 1344 = (2 : ℝ) ^ ((((-3 : ℤ) : ℝ) - 69) / 12) := by
    rw [show ((((-3 : ℤ) : ℝ)) - 69) / 12 = ((-6 : ℤ) : ℝ) by norm_num,
      Real.rpow_intCast]
    norm_num
  have h1 : frequencyToNote 21 1344 = some ⟨"A", -1, "A-1", 0⟩ := by
    rw [frequencyToNote_exact 21 1344 (-3) (by norm_num) (by norm_num) hr]
    decide
  have h2 : frequencyToNoteSpec 21 1344 = some ⟨"A", -2, "A-2", 0⟩ := by
    rw [frequencyToNoteSpec_exact 21 1344 (-3) (by norm_num) (by norm_num) hr]
    decide
  refine ⟨h1, h2, ?_⟩
  rw [h1, h2]
  decide

/-- Claim C1 (amended): the native conversion agrees with the reference
definition of the spec whenever the nearest MIDI number is non-negative (true
for every A4 in the documented 400-480 Hz range and every accepted
frequency); the octave otherwise uses truncating division.  The numeric
anchor points hold as claimed: 442 Hz at a4 = 442 gives exactly 0 cents;
440 Hz at a4 = 442 gives negative cents (-8); 445 Hz at a4 = 440 gives note
A4 with cents in [19, 21]. -/
theorem claim_C1_amended :
    (∀ freq a4 : ℝ, 0 ≤ round (12 * Real.logb 2 (freq / a4) + 69) →
      frequencyToNote freq a4 = frequencyToNoteSpec freq a4)
    ∧ frequencyToNote 442 442 = some ⟨"A", 4, "A4", 0⟩
    ∧ (∃ n : NoteInfo, frequencyToNote 440 442 = some n ∧ n.noteName = "A"
        ∧ n.octave = 4 ∧ n.cents < 0)
    ∧ (∃ n : NoteInfo, frequencyToNote 445 440 = some n ∧ n.noteName = "A"
        ∧ n.octave = 4 ∧ 19 ≤ n.cents ∧ n.cents ≤ 21) := by
  refine ⟨?_, frequencyToNote_442_442, ?_, ?_⟩
  · intro freq a4 hm
    unfold frequencyToNote frequencyToNoteSpec
    split_ifs with h
    · rfl
    · have hdiv : (round (12 * Real.logb 2 (freq / a4) + 69)).fdiv 12
          = (round (12 * Real.logb 2 (freq / a4) + 69)).tdiv 12 :=
        Int.fdiv_eq_tdiv hm (by norm_num)
      simp only [hdiv]
  · exact ⟨⟨"A", 4, "A4", -8⟩, frequencyToNote_440_442, rfl, rfl, by norm_num⟩
  · obtain ⟨hlb, hub⟩ := logb_445_440_bounds
    have hmid : round (12 * Real.logb 2 ((445 : ℝ) / 440) + 69) = 69 :=
      round_eq_int (by push_cast; linarith) (by push_cast; linarith)
    have heval := frequencyToNote_eval 445 440 69 (by norm_num) hmid
    have hinner : (440 : ℝ) * (2 : ℝ) ^ ((((69 : ℤ) : ℝ) - 69) / 12) = 440 := by
      rw [show ((((69 : ℤ) : ℝ)) - 69) / 12 = (0 : ℝ) by norm_num, Real.rpow_zero,
        mul_one]
    rw [hinner] at heval
    have h19 : (19 : ℤ) ≤ ⌊1200 * Real.logb 2 ((445 : ℝ) / 440) + 1 / 2⌋ :=
      Int.le_floor.mpr (by push_cast; linarith)
    have h21 : ⌊1200 * Real.logb 2 ((445 : ℝ) / 440) + 1 / 2⌋ ≤ 21 := by
      have h22 : ⌊1200 * Real.logb 2 ((445 : ℝ) / 440) + 1 / 2⌋ < 22 :=
        Int.floor_lt.mpr (by push_cast; linarith)
      omega
    refine ⟨_, heval, by decide, by decide, ?_, ?_⟩
    · show (19 : ℤ) ≤ round (1200 * Real.logb 2 ((445 : ℝ) / 440))
      rw [round_eq]
      exact h19
    · show round (1200 * Real.logb 2 ((445 : ℝ) / 440)) ≤ 21
      rw [round_eq]
      exact h21

/-- Witness for C1 (amended): at 442 Hz with a4 = 442 the nearest MIDI
number is 69 ≥ 0 and the two definitions agree. -/
theorem claim_C1_witness :
    frequencyToNote 442 442 = frequencyToNoteSpec 442 442 := by
  refine claim_C1_amended.1 442 442 ?_
  rw [show (442 : ℝ) / 442 = 1 by norm_num, Real.logb_one,
    show (12 : ℝ) * 0 + 69 = ((69 : ℤ) : ℝ) by norm_num, round_intCast]
  norm_num

end PitchEngine
